import Mathlib

/-!
Verification development for the geomagnetic-mortality analysis application.

The repository is a Python data-analysis application: an offline preprocessing
pipeline (`preprocess_data.py`), a statistics component
(`components/statistics.py`), a data loader (`utils/data_loader.py`), an MMWR
calendar utility (`utils/mmwr_calendar.py`) and several presentation pages.
This file gives a shallow embedding of the data model and the operations the
claims under scrutiny are about, and proves or refutes each claim.

Modelling conventions:
- Python floats are modelled by exact rationals `ℚ` (values returned by the
  external statistics library, which are genuinely irrational reals such as a
  Pearson r, are modelled by `ℝ` where needed); division by zero follows the
  Lean convention `q / 0 = 0` (the float `NaN` pathologies of groups with
  fewer than two elements are outside every claim considered here).
- Dataframes are modelled by lists of typed rows; a missing value (`NaN`)
  in a column that can carry one is modelled by `Option`.
- Fallible Python code (exceptions) is modelled by `Option`-returning
  functions, `none` standing for a raised exception.
- Calls into the external statistics library (scipy) are modelled by
  abstract function parameters, with the library's documented input checks
  (equal lengths, at least two observations) made explicit.
-/

/-- A calendar date as produced by Python's `datetime(year, month, day)`. -/
structure Date where
  year : Int
  month : Nat
  day : Nat
deriving DecidableEq, Repr

/-- Number of days in a month, with leap years, as `datetime` validates. -/
def daysInMonth (y : Int) (m : Nat) : Nat :=
  if m = 2 then
    if y % 4 = 0 ∧ (y % 100 ≠ 0 ∨ y % 400 = 0) then 29 else 28
  else if m = 4 ∨ m = 6 ∨ m = 9 ∨ m = 11 then 30
  else 31

/-- `datetime(y, m, d)`: succeeds exactly on valid Gregorian dates within
Python's supported year range, else raises `ValueError` (modelled `none`). -/
def mkDatetime (y : Int) (m : Nat) (d : Int) : Option Date :=
  if 1 ≤ y ∧ y ≤ 9999 ∧ 1 ≤ m ∧ m ≤ 12 ∧ 1 ≤ d ∧ d ≤ (daysInMonth y m : Int) then
    some ⟨y, m, d.toNat⟩
  else none

/-- Mean of a list of rationals, as the tabular library computes a column
mean; the empty-list convention `0/0 = 0` is irrelevant to the claims. -/
def qmean (l : List ℚ) : ℚ := l.sum / l.length

/-! ### Generic list-sum helpers -/

theorem sum_map_split {α : Type} (p : α → Bool) (f : α → ℚ) (l : List α) :
    (l.map f).sum
      = ((l.filter p).map f).sum + ((l.filter fun a => !p a).map f).sum := by
  induction l with
  | nil => simp
  | cons a t ih =>
    by_cases h : p a = true
    · simp [List.filter_cons, h, ih]
      ring
    · have h' : p a = false := Bool.eq_false_iff.mpr h
      simp [List.filter_cons, h', ih]
      ring

theorem sum_map_congr {α : Type} {l : List α} {f g : α → ℚ}
    (h : ∀ a ∈ l, f a = g a) : (l.map f).sum = (l.map g).sum := by
  induction l with
  | nil => rfl
  | cons a t ih =>
    simp only [List.map_cons, List.sum_cons]
    rw [h a (List.mem_cons_self a t), ih fun b hb => h b (List.mem_cons_of_mem a hb)]

theorem sum_map_const {α : Type} (l : List α) (c : ℚ) :
    (l.map fun _ => c).sum = l.length * c := by
  induction l with
  | nil => simp
  | cons a t ih =>
    simp only [List.map_cons, List.sum_cons, List.length_cons, ih]
    push_cast
    ring

/-- Double-counting identity behind the seasonal adjustment: summing, over all
rows, the mean of the row's own group (rows sharing its key) gives back the
plain sum of the values. -/
theorem sum_map_group_mean {α : Type} (key : α → ℕ) (val : α → ℚ) :
    ∀ (n : ℕ) (l : List α), l.length ≤ n →
      (l.map fun a => qmean ((l.filter fun b => key b == key a).map val)).sum
        = (l.map val).sum := by
  intro n
  induction n with
  | zero =>
    intro l hl
    have : l = [] := List.eq_nil_of_length_eq_zero (Nat.le_zero.mp hl)
    subst this
    simp
  | succ n ih =>
    intro l hl
    cases l with
    | nil => simp
    | cons a t =>
      have hpa : (fun b => key b == key a) a = true := by simp
      have hmem : a ∈ (a :: t).filter fun b => key b == key a :=
        List.mem_filter.mpr ⟨List.mem_cons_self a t, hpa⟩
      have hpos : 0 < ((a :: t).filter fun b => key b == key a).length :=
        List.length_pos.mpr fun hnil => by simp [hnil] at hmem
      rw [sum_map_split (fun b => key b == key a)
        (fun x => qmean (((a :: t).filter fun b => key b == key x).map val)) (a :: t),
        sum_map_split (fun b => key b == key a) val (a :: t)]
      have hpart1 :
          (((a :: t).filter fun b => key b == key a).map
            fun x => qmean (((a :: t).filter fun b => key b == key x).map val)).sum
          = (((a :: t).filter fun b => key b == key a).map val).sum := by
        have hconst : ∀ x ∈ (a :: t).filter fun b => key b == key a,
            qmean (((a :: t).filter fun b => key b == key x).map val)
              = qmean (((a :: t).filter fun b => key b == key a).map val) := by
          intro x hx
          have hkx : key x = key a := by
            have := (List.mem_filter.mp hx).2
            simpa using this
          have : ((a :: t).filter fun b => key b == key x)
              = (a :: t).filter fun b => key b == key a :=
            List.filter_congr fun b _ => by rw [hkx]
          rw [this]
        rw [sum_map_congr hconst, sum_map_const]
        rw [qmean, List.length_map]
        have hne : (((a :: t).filter fun b => key b == key a).length : ℚ) ≠ 0 := by
          exact_mod_cast Nat.pos_iff_ne_zero.mp hpos
        field_simp
      have hlenR : ((a :: t).filter fun b => !(key b == key a)).length ≤ n := by
        have : (a :: t).filter (fun b => !(key b == key a))
            = t.filter fun b => !(key b == key a) := by
          simp [List.filter_cons]
        rw [this]
        exact le_trans (List.length_filter_le _ t) (Nat.le_of_succ_le_succ hl)
      have hpart2 :
          (((a :: t).filter fun b => !(key b == key a)).map
            fun x => qmean (((a :: t).filter fun b => key b == key x).map val)).sum
          = (((a :: t).filter fun b => !(key b == key a)).map val).sum := by
        have hre : ∀ x ∈ (a :: t).filter fun b => !(key b == key a),
            qmean (((a :: t).filter fun b => key b == key x).map val)
              = qmean ((((a :: t).filter fun b => !(key b == key a)).filter
                  fun b => key b == key x).map val) := by
          intro x hx
          have hkx : ¬ key x = key a := by
            have := (List.mem_filter.mp hx).2
            simpa using this
          have hstep : (a :: t).filter (fun b => key b == key x)
              = (a :: t).filter fun b => (key b == key x) && !(key b == key a) := by
            refine List.filter_congr fun b _ => ?_
            by_cases hb : key b = key x
            · simp [hb, hkx]
            · simp [hb]
          have hff : ((a :: t).filter fun b => !(key b == key a)).filter
              (fun b => key b == key x)
              = (a :: t).filter fun b => (key b == key x) && !(key b == key a) :=
            List.filter_filter ..
          rw [hstep, ← hff]
        rw [sum_map_congr hre]
        exact ih ((a :: t).filter fun b => !(key b == key a)) hlenR
      rw [hpart1, hpart2]

/-! ### Statistics component: `compute_seasonal_adjustment` (C5) -/

/-- One input row of `compute_seasonal_adjustment`: its `date_col` entry and
its `value_col` entry. -/
structure SARow where
  date : Date
  value : ℚ
deriving DecidableEq, Repr

/-- One output row: the input columns plus the derived `month` and `adjusted`
columns that `compute_seasonal_adjustment` adds to its private copy. -/
structure SAOut where
  date : Date
  value : ℚ
  month : ℕ
  adjusted : ℚ
deriving DecidableEq, Repr

/-- `monthly_means = df.groupby('month')[value_col].mean()`, looked up at a
month `m`: the mean of the values of the rows whose date falls in month `m`. -/
def monthly_means (df : List SARow) (m : ℕ) : ℚ :=
  qmean ((df.filter fun r => r.date.month == m).map SARow.value)

/-- `compute_seasonal_adjustment(df, date_col, value_col)`
(`components/statistics.py`, lines 55-69): copies the frame, derives the
calendar month from `date_col`, and sets each row's `adjusted` value to
`row[value_col] - monthly_means[row['month']] + df[value_col].mean()`. -/
def compute_seasonal_adjustment (df : List SARow) : List SAOut :=
  df.map fun r =>
    { date := r.date
      value := r.value
      month := r.date.month
      adjusted := r.value - monthly_means df r.date.month
          + qmean (df.map SARow.value) }

theorem sum_map_sub_add_const {α : Type} (l : List α) (f g : α → ℚ) (c : ℚ) :
    (l.map fun a => f a - g a + c).sum
      = (l.map f).sum - (l.map g).sum + l.length * c := by
  induction l with
  | nil => simp
  | cons a t ih =>
    simp only [List.map_cons, List.sum_cons, List.length_cons, ih]
    push_cast
    ring

/-- Summing each row's own month mean over all rows returns the plain sum of
the value column. -/
theorem sum_monthly_means (df : List SARow) :
    (df.map fun r => monthly_means df r.date.month).sum
      = (df.map SARow.value).sum := by
  have h := sum_map_group_mean (fun r : SARow => r.date.month) SARow.value
    df.length df le_rfl
  simpa [monthly_means] using h

/-- C5: every output row's adjusted value is
`value − (its month's mean) + (overall mean)`, and the mean of the adjusted
column equals the mean of the input value column, for any pattern of month
membership (exactly, in rational arithmetic). -/
theorem seasonal_adjustment_mean_preserved (df : List SARow) :
    (compute_seasonal_adjustment df).length = df.length
    ∧ (∀ (i : ℕ) (h₁ : i < (compute_seasonal_adjustment df).length)
        (h₂ : i < df.length),
        ((compute_seasonal_adjustment df).get ⟨i, h₁⟩).adjusted
          = (df.get ⟨i, h₂⟩).value
            - monthly_means df (df.get ⟨i, h₂⟩).date.month
            + qmean (df.map SARow.value))
    ∧ qmean ((compute_seasonal_adjustment df).map SAOut.adjusted)
        = qmean (df.map SARow.value) := by
  refine ⟨by simp [compute_seasonal_adjustment], ?_, ?_⟩
  · intro i h₁ h₂
    simp [compute_seasonal_adjustment]
  · have hmap : (compute_seasonal_adjustment df).map SAOut.adjusted
        = df.map fun r => r.value - monthly_means df r.date.month
            + qmean (df.map SARow.value) := by
      simp [compute_seasonal_adjustment]
    rw [qmean, hmap, sum_map_sub_add_const, sum_monthly_means]
    rcases Nat.eq_zero_or_pos df.length with h0 | hpos
    · simp [qmean, h0]
    · have hne : (df.length : ℚ) ≠ 0 := by
        exact_mod_cast Nat.pos_iff_ne_zero.mp hpos
      rw [qmean, List.length_map, List.length_map]
      field_simp

/-! ### Statistics component: `compare_groups` (C6) and the Interactive
Explorer's sample-size banner (C4) -/

/-- A row of the frame as `compare_groups` reads it: its `group_col` entry
(the storm metric) and its `value_col` entry (the outcome). -/
structure CGRow where
  group : ℚ
  value : ℚ
deriving DecidableEq, Repr

/-- `df[df[group_col] >= threshold][value_col]`. -/
def highGroup (df : List CGRow) (threshold : ℚ) : List ℚ :=
  (df.filter fun r => threshold ≤ r.group).map CGRow.value

/-- `df[df[group_col] < threshold][value_col]`. -/
def lowGroup (df : List CGRow) (threshold : ℚ) : List ℚ :=
  (df.filter fun r => r.group < threshold).map CGRow.value

/-- Sample variance with denominator `n - 1`, the square of the tabular
library's default `Series.std()`. -/
def sampleVar (l : List ℚ) : ℚ :=
  ((l.map fun x => (x - qmean l) ^ 2).sum) / ((l.length : ℚ) - 1)

structure CompareGroupsResult where
  high_mean : ℚ
  high_std : ℚ
  high_n : ℕ
  low_mean : ℚ
  low_std : ℚ
  low_n : ℕ
  difference : ℚ
  t_statistic : ℚ
  p_value : ℚ
  cohens_d : ℚ
deriving DecidableEq, Repr

/-- The pooled-variance expression of `compare_groups`, written with the two
group standard deviations `sqrtQ (sampleVar _)` exactly as the code squares
them back. -/
def pooledVarOf (sqrtQ : ℚ → ℚ) (df : List CGRow) (threshold : ℚ) : ℚ :=
  (((highGroup df threshold).length : ℚ) - 1) * sqrtQ (sampleVar (highGroup df threshold)) ^ 2
    + (((lowGroup df threshold).length : ℚ) - 1) * sqrtQ (sampleVar (lowGroup df threshold)) ^ 2

/-- `compare_groups(df, group_col, threshold, value_col)`
(`components/statistics.py`, lines 27-52). The square root (`** 0.5`) and the
independent t-test are abstract parameters (float power, scipy). `none` models
the `ZeroDivisionError` raised when `len(high)+len(low)-2 == 0`; the `NaN`
that a group with fewer than two elements would give its standard deviation in
float arithmetic is outside the claims and is modelled by the rational
convention `0/0 = 0`. -/
def compare_groups (sqrtQ : ℚ → ℚ) (ttest_ind : List ℚ → List ℚ → ℚ × ℚ)
    (df : List CGRow) (threshold : ℚ) : Option CompareGroupsResult :=
  let high_group := highGroup df threshold
  let low_group := lowGroup df threshold
  let tres := ttest_ind high_group low_group
  if high_group.length + low_group.length = 2 then none
  else
    let high_std := sqrtQ (sampleVar high_group)
    let low_std := sqrtQ (sampleVar low_group)
    let pooled_var :=
      (((high_group.length : ℚ) - 1) * high_std ^ 2
          + ((low_group.length : ℚ) - 1) * low_std ^ 2)
        / ((high_group.length : ℚ) + (low_group.length : ℚ) - 2)
    let pooled_std := sqrtQ pooled_var
    some { high_mean := qmean high_group
           high_std := high_std
           high_n := high_group.length
           low_mean := qmean low_group
           low_std := low_std
           low_n := low_group.length
           difference := qmean high_group - qmean low_group
           t_statistic := tres.1
           p_value := tres.2
           cohens_d := if 0 < pooled_std
             then (qmean high_group - qmean low_group) / pooled_std else 0 }

theorem sampleVar_of_const (l : List ℚ) (c : ℚ) (h : ∀ x ∈ l, x = c) :
    sampleVar l = 0 := by
  rcases l with _ | ⟨a, t⟩
  · simp [sampleVar]
  · have hlen0 : (a :: t).length ≠ 0 := Nat.succ_ne_zero t.length
    have hlen : ((a :: t).length : ℚ) ≠ 0 := Nat.cast_ne_zero.mpr hlen0
    have hmean : qmean (a :: t) = c := by
      rw [qmean, List.sum_eq_card_nsmul (a :: t) c h, nsmul_eq_mul]
      field_simp
    have hz : ∀ x ∈ a :: t, (x - qmean (a :: t)) ^ 2 = (fun _ : ℚ => (0 : ℚ)) x := by
      intro x hx
      rw [hmean, h x hx]
      ring
    rw [sampleVar, sum_map_congr hz, sum_map_const]
    simp

/-- C6: in every successful result of `compare_groups`, Cohen's d is the
difference of group means divided by the pooled standard deviation
`sqrtQ (pooled variance)` with the guard at zero; whenever the pooled standard
deviation is `0`, Cohen's d is exactly `0`; in particular when both groups are
constant (zero variance) and the square root sends `0` to `0`, Cohen's d
is `0`. -/
theorem compare_groups_cohens_d_guarded
    (sqrtQ : ℚ → ℚ) (ttest_ind : List ℚ → List ℚ → ℚ × ℚ)
    (df : List CGRow) (threshold : ℚ) (res : CompareGroupsResult)
    (h : compare_groups sqrtQ ttest_ind df threshold = some res) :
    (res.cohens_d =
      if 0 < sqrtQ (pooledVarOf sqrtQ df threshold
          / (((highGroup df threshold).length : ℚ)
              + ((lowGroup df threshold).length : ℚ) - 2))
      then (qmean (highGroup df threshold) - qmean (lowGroup df threshold))
          / sqrtQ (pooledVarOf sqrtQ df threshold
              / (((highGroup df threshold).length : ℚ)
                  + ((lowGroup df threshold).length : ℚ) - 2))
      else 0)
    ∧ (sqrtQ (pooledVarOf sqrtQ df threshold
          / (((highGroup df threshold).length : ℚ)
              + ((lowGroup df threshold).length : ℚ) - 2)) = 0
        → res.cohens_d = 0)
    ∧ (sqrtQ 0 = 0
        → (∃ c, ∀ x ∈ highGroup df threshold, x = c)
        → (∃ c, ∀ x ∈ lowGroup df threshold, x = c)
        → res.cohens_d = 0) := by
  rw [compare_groups] at h
  by_cases hlen :
      (highGroup df threshold).length + (lowGroup df threshold).length = 2
  · simp only [hlen, if_true] at h
    exact absurd h (by simp)
  · simp only [hlen, if_false, ite_false, Option.some_inj] at h
    subst h
    refine ⟨rfl, fun hz => ?_, fun hs hc1 hc2 => ?_⟩
    · simp only [pooledVarOf] at hz
      simp [pooledVarOf, hz]
    · obtain ⟨c1, hc1⟩ := hc1
      obtain ⟨c2, hc2⟩ := hc2
      have hv1 : sampleVar (highGroup df threshold) = 0 := sampleVar_of_const _ c1 hc1
      have hv2 : sampleVar (lowGroup df threshold) = 0 := sampleVar_of_const _ c2 hc2
      simp [hv1, hv2, hs]

def sqrtZeroFn : ℚ → ℚ := fun _ => 0

def ttestZeroFn : List ℚ → List ℚ → ℚ × ℚ := fun _ _ => (0, 0)

def cgExampleDf : List CGRow := [⟨1, 5⟩, ⟨1, 5⟩, ⟨0, 3⟩, ⟨0, 3⟩]

def cgExampleRes : CompareGroupsResult :=
  { high_mean := 5, high_std := 0, high_n := 2, low_mean := 3, low_std := 0,
    low_n := 2, difference := 2, t_statistic := 0, p_value := 0, cohens_d := 0 }

theorem compare_groups_cohens_d_guarded_witness :
    compare_groups sqrtZeroFn ttestZeroFn cgExampleDf 1 = some cgExampleRes
    ∧ cgExampleRes.cohens_d = 0 := by
  have hv : compare_groups sqrtZeroFn ttestZeroFn cgExampleDf 1 = some cgExampleRes := by
    norm_num [compare_groups, highGroup, lowGroup, qmean, sampleVar,
      sqrtZeroFn, ttestZeroFn, cgExampleDf, cgExampleRes, CompareGroupsResult.mk.injEq]
  refine ⟨hv, ?_⟩
  refine (compare_groups_cohens_d_guarded sqrtZeroFn ttestZeroFn cgExampleDf 1
    cgExampleRes hv).2.2 rfl ⟨5, ?_⟩ ⟨3, ?_⟩
  · intro x hx
    simpa [highGroup, cgExampleDf] using hx
  · intro x hx
    simpa [lowGroup, cgExampleDf] using hx

/-- The three sample-adequacy banners of the Interactive Explorer. -/
inductive SampleSizeBanner
  | error
  | warning
  | success
deriving DecidableEq, Repr

/-- The sample-size banner logic of the Interactive Explorer
(`pages/3_Interactive_Explorer.py`, lines 209-230): `low_n`/`high_n` are the
two group sizes of `compare_groups` on the filtered table, i.e. the row counts
below / at-or-above the threshold. -/
def sample_size_banner (df : List CGRow) (threshold : ℚ) : SampleSizeBanner :=
  let high_n := (highGroup df threshold).length
  let low_n := (lowGroup df threshold).length
  if high_n < 10 ∨ low_n < 10 then SampleSizeBanner.error
  else if high_n < 30 ∨ low_n < 30 then SampleSizeBanner.warning
  else SampleSizeBanner.success

/-- A filtered table with 1 week below the threshold and 10 at or above it. -/
def bannerCexDf : List CGRow := ⟨0, 0⟩ :: List.replicate 10 ⟨1, 0⟩

/-- C4 counterexample: on a split of 1 low / 10 high weeks the code shows the
hard "too small for reliable inference" banner, although the two groups are
not both below 10 (the high group has exactly 10 weeks, which the claim maps
to the soft warning). -/
theorem sample_size_banner_cex :
    sample_size_banner bannerCexDf 1 = SampleSizeBanner.error
    ∧ ¬((highGroup bannerCexDf 1).length < 10 ∧ (lowGroup bannerCexDf 1).length < 10)
    ∧ (10 ≤ (highGroup bannerCexDf 1).length ∧ (highGroup bannerCexDf 1).length < 30) := by
  decide

/-- C4 amended: the hard warning is shown exactly when either group has fewer
than 10 weeks; the soft warning exactly when no group is below 10 but either
group is below 30; the success banner otherwise. -/
theorem sample_size_banner_spec (df : List CGRow) (threshold : ℚ) :
    (sample_size_banner df threshold = SampleSizeBanner.error
      ↔ ((highGroup df threshold).length < 10 ∨ (lowGroup df threshold).length < 10))
    ∧ (sample_size_banner df threshold = SampleSizeBanner.warning
      ↔ (¬((highGroup df threshold).length < 10 ∨ (lowGroup df threshold).length < 10)
          ∧ ((highGroup df threshold).length < 30
              ∨ (lowGroup df threshold).length < 30)))
    ∧ (sample_size_banner df threshold = SampleSizeBanner.success
      ↔ (¬((highGroup df threshold).length < 10 ∨ (lowGroup df threshold).length < 10)
          ∧ ¬((highGroup df threshold).length < 30
              ∨ (lowGroup df threshold).length < 30))) := by
  rw [sample_size_banner]
  split_ifs with h1 h2 <;> simp_all

/-! ### Preprocessing pipeline: lag columns of `aggregate_geomagnetic_weekly`
(C1, `preprocess_data.py` lines 193-212) -/

/-- One weekly aggregate row, before lag columns are added: the identifying
columns, the four outcome death counts and the eight same-week geomagnetic
summary statistics built in `aggregate_geomagnetic_weekly`. -/
structure WeeklyRow where
  year : Int
  week_num : Int
  week_end : Int
  deaths_suicide : ℚ
  deaths_violence : ℚ
  deaths_overdose : ℚ
  deaths_cardiovascular : ℚ
  weekly_mean_Kp : ℚ
  weekly_mean_ap : ℚ
  weekly_sum_ap : ℚ
  weekly_max_Kp : ℚ
  weekly_max_ap : ℚ
  storm_count_Kp5 : ℚ
  storm_count_Kp6 : ℚ
  storm_count_Kp7 : ℚ
deriving DecidableEq, Repr

/-- A weekly row together with the ten lag columns added by the pipeline
(`shift(1)` and `shift(2)` of the five lag metrics); `none` is the `NaN` a
shift writes into rows with no predecessor. -/
structure LaggedRow where
  base : WeeklyRow
  weekly_mean_Kp_lag1 : Option ℚ
  weekly_mean_Kp_lag2 : Option ℚ
  weekly_mean_ap_lag1 : Option ℚ
  weekly_mean_ap_lag2 : Option ℚ
  weekly_sum_ap_lag1 : Option ℚ
  weekly_sum_ap_lag2 : Option ℚ
  weekly_max_Kp_lag1 : Option ℚ
  weekly_max_Kp_lag2 : Option ℚ
  storm_count_Kp5_lag1 : Option ℚ
  storm_count_Kp5_lag2 : Option ℚ
deriving DecidableEq, Repr

def insertByWeekEnd (r : WeeklyRow) : List WeeklyRow → List WeeklyRow
  | [] => [r]
  | a :: t => if r.week_end ≤ a.week_end then r :: a :: t else a :: insertByWeekEnd r t

/-- `weekly_df.sort_values('week_end')`: sort ascending by week-end date. -/
def sort_values_week_end (l : List WeeklyRow) : List WeeklyRow :=
  l.foldr insertByWeekEnd []

/-- `Series.shift(k)` read at row `i`: the row `i - k` when it exists. -/
def shiftLag (s : List WeeklyRow) (k i : ℕ) : Option WeeklyRow :=
  if k ≤ i then s.get? (i - k) else none

/-- The loop `for var in lag_vars: weekly_df[var+'_lag1'] = weekly_df[var].shift(1);
weekly_df[var+'_lag2'] = weekly_df[var].shift(2)` over the five lag metrics,
applied to the already sorted table. -/
def add_lag_columns (s : List WeeklyRow) : List LaggedRow :=
  (List.finRange s.length).map fun i =>
    { base := s.get i
      weekly_mean_Kp_lag1 := (shiftLag s 1 i).map WeeklyRow.weekly_mean_Kp
      weekly_mean_Kp_lag2 := (shiftLag s 2 i).map WeeklyRow.weekly_mean_Kp
      weekly_mean_ap_lag1 := (shiftLag s 1 i).map WeeklyRow.weekly_mean_ap
      weekly_mean_ap_lag2 := (shiftLag s 2 i).map WeeklyRow.weekly_mean_ap
      weekly_sum_ap_lag1 := (shiftLag s 1 i).map WeeklyRow.weekly_sum_ap
      weekly_sum_ap_lag2 := (shiftLag s 2 i).map WeeklyRow.weekly_sum_ap
      weekly_max_Kp_lag1 := (shiftLag s 1 i).map WeeklyRow.weekly_max_Kp
      weekly_max_Kp_lag2 := (shiftLag s 2 i).map WeeklyRow.weekly_max_Kp
      storm_count_Kp5_lag1 := (shiftLag s 1 i).map WeeklyRow.storm_count_Kp5
      storm_count_Kp5_lag2 := (shiftLag s 2 i).map WeeklyRow.storm_count_Kp5 }

/-- `weekly_df.dropna(subset=['weekly_mean_Kp_lag1', 'weekly_mean_Kp_lag2'])`:
keep the rows where both named lag columns are defined. -/
def dropna_lag_subset (l : List LaggedRow) : List LaggedRow :=
  l.filter fun r => r.weekly_mean_Kp_lag1.isSome && r.weekly_mean_Kp_lag2.isSome

/-- Lines 193-212 of `aggregate_geomagnetic_weekly`: sort by week-end, add the
ten lag columns, drop the rows whose lags are undefined. -/
def aggregate_weekly_lag_step (weekly : List WeeklyRow) : List LaggedRow :=
  dropna_lag_subset (add_lag_columns (sort_values_week_end weekly))

theorem add_lag_columns_length (s : List WeeklyRow) :
    (add_lag_columns s).length = s.length := by
  simp [add_lag_columns]

theorem add_lag_columns_get (s : List WeeklyRow) (i : ℕ)
    (h1 : i < (add_lag_columns s).length) (h2 : i < s.length) :
    (add_lag_columns s).get ⟨i, h1⟩ =
      { base := s.get ⟨i, h2⟩
        weekly_mean_Kp_lag1 := (shiftLag s 1 i).map WeeklyRow.weekly_mean_Kp
        weekly_mean_Kp_lag2 := (shiftLag s 2 i).map WeeklyRow.weekly_mean_Kp
        weekly_mean_ap_lag1 := (shiftLag s 1 i).map WeeklyRow.weekly_mean_ap
        weekly_mean_ap_lag2 := (shiftLag s 2 i).map WeeklyRow.weekly_mean_ap
        weekly_sum_ap_lag1 := (shiftLag s 1 i).map WeeklyRow.weekly_sum_ap
        weekly_sum_ap_lag2 := (shiftLag s 2 i).map WeeklyRow.weekly_sum_ap
        weekly_max_Kp_lag1 := (shiftLag s 1 i).map WeeklyRow.weekly_max_Kp
        weekly_max_Kp_lag2 := (shiftLag s 2 i).map WeeklyRow.weekly_max_Kp
        storm_count_Kp5_lag1 := (shiftLag s 1 i).map WeeklyRow.storm_count_Kp5
        storm_count_Kp5_lag2 := (shiftLag s 2 i).map WeeklyRow.storm_count_Kp5 } := by
  show (add_lag_columns s)[i] = _
  unfold add_lag_columns
  simp [List.getElem_map, List.getElem_finRange]

theorem shiftLag_at_succ (s : List WeeklyRow) (k i : ℕ) (h : i + k < s.length) :
    shiftLag s k (i + k) = some (s.get ⟨i, by omega⟩) := by
  rw [shiftLag, if_pos (Nat.le_add_left k i)]
  have : i + k - k = i := by omega
  rw [this]
  exact List.get?_eq_get (by omega)

/-- A list filtered by a predicate that holds exactly at positions 2 and later
is the list with its first two elements dropped. -/
theorem filter_eq_drop_two {β : Type} (l : List β) (p : β → Bool)
    (h : ∀ (j : ℕ) (hj : j < l.length), p (l.get ⟨j, hj⟩) = decide (2 ≤ j)) :
    l.filter p = l.drop 2 := by
  rcases l with _ | ⟨a, _ | ⟨b, t⟩⟩
  · simp
  · have h0 : p a = false := h 0 (by simp)
    simp [h0]
  · have h0 : p a = false := h 0 (by simp)
    have h1 : p b = false := h 1 (by simp)
    have ht : ∀ x ∈ t, p x = true := by
      intro x hx
      obtain ⟨⟨k, hk⟩, hkx⟩ := List.get_of_mem hx
      have hkb : k + 2 < (a :: b :: t).length := by
        simp only [List.length_cons]
        omega
      have h2 := h (k + 2) hkb
      have h3 : (a :: b :: t).get ⟨k + 2, hkb⟩ = t.get ⟨k, hk⟩ := rfl
      have hdec : decide (2 ≤ k + 2) = true := by simp
      rw [h3, hdec, hkx] at h2
      exact h2
    simp [List.filter_cons, h0, h1, List.filter_eq_self.mpr ht]

/-- C1: writing `s` for the weekly table sorted ascending by week-end date and
`L` for `s` with the ten lag columns attached, the rows of `L` are those of
`s` in order; at every row `i+1` each lag-1 column equals the corresponding
base column at row `i`; at every row `i+2` each lag-2 column equals the
corresponding base column at row `i`; and the final table is exactly `L`
without its first two rows (the rows whose lag-2 values are undefined). -/
theorem lag_columns_correct (weekly : List WeeklyRow) :
    let s := sort_values_week_end weekly
    let L := add_lag_columns s
    L.map LaggedRow.base = s
    ∧ (∀ (i : ℕ) (h : i + 1 < L.length),
        (L.get ⟨i + 1, h⟩).weekly_mean_Kp_lag1
            = some ((L.get ⟨i, by omega⟩).base.weekly_mean_Kp)
        ∧ (L.get ⟨i + 1, h⟩).weekly_mean_ap_lag1
            = some ((L.get ⟨i, by omega⟩).base.weekly_mean_ap)
        ∧ (L.get ⟨i + 1, h⟩).weekly_sum_ap_lag1
            = some ((L.get ⟨i, by omega⟩).base.weekly_sum_ap)
        ∧ (L.get ⟨i + 1, h⟩).weekly_max_Kp_lag1
            = some ((L.get ⟨i, by omega⟩).base.weekly_max_Kp)
        ∧ (L.get ⟨i + 1, h⟩).storm_count_Kp5_lag1
            = some ((L.get ⟨i, by omega⟩).base.storm_count_Kp5))
    ∧ (∀ (i : ℕ) (h : i + 2 < L.length),
        (L.get ⟨i + 2, h⟩).weekly_mean_Kp_lag2
            = some ((L.get ⟨i, by omega⟩).base.weekly_mean_Kp)
        ∧ (L.get ⟨i + 2, h⟩).weekly_mean_ap_lag2
            = some ((L.get ⟨i, by omega⟩).base.weekly_mean_ap)
        ∧ (L.get ⟨i + 2, h⟩).weekly_sum_ap_lag2
            = some ((L.get ⟨i, by omega⟩).base.weekly_sum_ap)
        ∧ (L.get ⟨i + 2, h⟩).weekly_max_Kp_lag2
            = some ((L.get ⟨i, by omega⟩).base.weekly_max_Kp)
        ∧ (L.get ⟨i + 2, h⟩).storm_count_Kp5_lag2
            = some ((L.get ⟨i, by omega⟩).base.storm_count_Kp5))
    ∧ aggregate_weekly_lag_step weekly = L.drop 2 := by
  intro s L
  have hAlen : (add_lag_columns s).length = s.length := add_lag_columns_length s
  refine ⟨?_, ?_, ?_, ?_⟩
  · show (add_lag_columns s).map LaggedRow.base = s
    rw [add_lag_columns, List.map_map]
    exact List.finRange_map_get s
  · intro i h
    have hs1 : i + 1 < s.length := by rwa [add_lag_columns_length] at h
    rw [add_lag_columns_get s (i + 1) h hs1,
      add_lag_columns_get s i (by omega) (by omega)]
    have hsh : shiftLag s 1 (i + 1) = some (s.get ⟨i, by omega⟩) :=
      shiftLag_at_succ s 1 i (by omega)
    simp [hsh]
  · intro i h
    have hs2 : i + 2 < s.length := by rwa [add_lag_columns_length] at h
    rw [add_lag_columns_get s (i + 2) h hs2,
      add_lag_columns_get s i (by omega) (by omega)]
    have hsh : shiftLag s 2 (i + 2) = some (s.get ⟨i, by omega⟩) :=
      shiftLag_at_succ s 2 i (by omega)
    simp [hsh]
  · show aggregate_weekly_lag_step weekly = (add_lag_columns s).drop 2
    rw [aggregate_weekly_lag_step, dropna_lag_subset]
    apply filter_eq_drop_two
    intro j hj
    have hjs : j < s.length := by rwa [add_lag_columns_length] at hj
    rw [add_lag_columns_get s j hj hjs]
    rcases j with _ | _ | j
    · simp [shiftLag]
    · have h0 : (0 : ℕ) < s.length := by omega
      simp [shiftLag, List.get?_eq_get h0]
    · have ha : (1 : ℕ) ≤ j + 2 := by omega
      have hb : (2 : ℕ) ≤ j + 2 := by omega
      have hc : j + 1 < s.length := by omega
      have hd : j < s.length := by omega
      simp [shiftLag, ha, hb, List.getElem?_eq_getElem hc, List.getElem?_eq_getElem hd]

/-! ### Preprocessing pipeline: `compute_correlations` (C2,
`preprocess_data.py` lines 215-300) -/

/-- The weekly table as `compute_correlations` reads it: the four outcome
columns and the ten geomagnetic metric columns (five same-week, five lag-1)
the function references; in the persisted table the lag-1 columns are all
defined, hence plain rationals. -/
structure CRow where
  deaths_suicide : ℚ
  deaths_violence : ℚ
  deaths_overdose : ℚ
  deaths_cardiovascular : ℚ
  weekly_mean_Kp : ℚ
  weekly_mean_ap : ℚ
  weekly_sum_ap : ℚ
  weekly_max_Kp : ℚ
  storm_count_Kp5 : ℚ
  weekly_mean_Kp_lag1 : ℚ
  weekly_mean_ap_lag1 : ℚ
  weekly_sum_ap_lag1 : ℚ
  weekly_max_Kp_lag1 : ℚ
  storm_count_Kp5_lag1 : ℚ
deriving DecidableEq, Repr

/-- The rational-valued outputs of the external statistics library, abstract:
the pipeline only stores them. -/
structure ScipyStats where
  pearson_r : List ℚ → List ℚ → ℚ
  pearson_p : List ℚ → List ℚ → ℚ
  spearman_r : List ℚ → List ℚ → ℚ
  spearman_p : List ℚ → List ℚ → ℚ

/-- `scipy.stats.pearsonr`: raises (modelled `none`) unless the two inputs
have the same length and at least two observations. -/
def pearsonrQ (lib : ScipyStats) (x y : List ℚ) : Option (ℚ × ℚ) :=
  if x.length = y.length ∧ 2 ≤ x.length then
    some (lib.pearson_r x y, lib.pearson_p x y)
  else none

/-- `scipy.stats.spearmanr` under the same input checks. -/
def spearmanrQ (lib : ScipyStats) (x y : List ℚ) : Option (ℚ × ℚ) :=
  if x.length = y.length ∧ 2 ≤ x.length then
    some (lib.spearman_r x y, lib.spearman_p x y)
  else none

/-- One entry of the `metrics` list literal of `compute_correlations`. -/
structure MetricSpec where
  col : CRow → ℚ
  metric_col : String
  name : String
  lag : String

/-- One entry of the `outcomes` list literal of `compute_correlations`. -/
structure OutcomeSpec where
  col : CRow → ℚ
  outcome_col : String
  label : String
  key : String

/-- The `metrics` literal: five same-week metrics then their five lag-1
variants, in source order. -/
def correlation_metrics : List MetricSpec :=
  [ ⟨CRow.weekly_mean_Kp, "weekly_mean_Kp", "Weekly Mean Kp", "same-week"⟩,
    ⟨CRow.weekly_mean_ap, "weekly_mean_ap", "Weekly Mean Ap", "same-week"⟩,
    ⟨CRow.weekly_sum_ap, "weekly_sum_ap", "Weekly Sum Ap", "same-week"⟩,
    ⟨CRow.weekly_max_Kp, "weekly_max_Kp", "Weekly Max Kp", "same-week"⟩,
    ⟨CRow.storm_count_Kp5, "storm_count_Kp5", "Storm Count (Kp>=5)", "same-week"⟩,
    ⟨CRow.weekly_mean_Kp_lag1, "weekly_mean_Kp_lag1", "Weekly Mean Kp (lag-1)", "lag-1"⟩,
    ⟨CRow.weekly_mean_ap_lag1, "weekly_mean_ap_lag1", "Weekly Mean Ap (lag-1)", "lag-1"⟩,
    ⟨CRow.weekly_sum_ap_lag1, "weekly_sum_ap_lag1", "Weekly Sum Ap (lag-1)", "lag-1"⟩,
    ⟨CRow.weekly_max_Kp_lag1, "weekly_max_Kp_lag1", "Weekly Max Kp (lag-1)", "lag-1"⟩,
    ⟨CRow.storm_count_Kp5_lag1, "storm_count_Kp5_lag1", "Storm Count Kp>=5 (lag-1)", "lag-1"⟩ ]

/-- The `outcomes` literal, in source order. -/
def correlation_outcomes : List OutcomeSpec :=
  [ ⟨CRow.deaths_suicide, "deaths_suicide", "Suicide", "suicide"⟩,
    ⟨CRow.deaths_violence, "deaths_violence", "Violence/Assault", "violence"⟩,
    ⟨CRow.deaths_overdose, "deaths_overdose", "Overdose", "overdose"⟩,
    ⟨CRow.deaths_cardiovascular, "deaths_cardiovascular", "Cardiovascular", "cardiovascular"⟩ ]

/-- One row of the correlation table. -/
structure CorrRecord where
  outcome : String
  outcome_label : String
  metric : String
  metric_col : String
  lag : String
  pearson_r : ℚ
  pearson_p : ℚ
  spearman_r : ℚ
  spearman_p : ℚ
  r_squared : ℚ
  significant : Bool
deriving DecidableEq, Repr

/-- The record appended to `results` for one (outcome, metric) pair. -/
def mkCorrRecord (lib : ScipyStats) (t : List CRow) (o : OutcomeSpec)
    (m : MetricSpec) : Option CorrRecord := do
  let rp ← pearsonrQ lib (t.map m.col) (t.map o.col)
  let sp ← spearmanrQ lib (t.map m.col) (t.map o.col)
  pure { outcome := o.key
         outcome_label := o.label
         metric := m.name
         metric_col := m.metric_col
         lag := m.lag
         pearson_r := rp.1
         pearson_p := rp.2
         spearman_r := sp.1
         spearman_p := sp.2
         r_squared := rp.1 ^ 2
         significant := decide (rp.2 < 0.05) }

/-- The Python loop accumulating into `results`: an exception anywhere aborts
the whole traversal. -/
def collectRecords {α β : Type} (f : α → Option β) : List α → Option (List β)
  | [] => some []
  | a :: l => do
      let b ← f a
      let r ← collectRecords f l
      pure (b :: r)

/-- `compute_correlations(weekly_df)`: for each of the 4 outcomes, first the
5 same-week metrics then the 5 lag-1 metrics, appending one record each. -/
def compute_correlations (lib : ScipyStats) (t : List CRow) :
    Option (List CorrRecord) :=
  collectRecords (fun p => mkCorrRecord lib t p.1 p.2)
    (correlation_outcomes.flatMap fun o =>
      ((correlation_metrics.filter fun m => m.lag == "same-week").map fun m => (o, m))
        ++ ((correlation_metrics.filter fun m => m.lag == "lag-1").map fun m => (o, m)))

theorem collectRecords_length {α β : Type} (f : α → Option β) :
    ∀ (l : List α) (r : List β), collectRecords f l = some r → r.length = l.length := by
  intro l
  induction l with
  | nil =>
    intro r h
    simp [collectRecords] at h
    simp [← h]
  | cons a t ih =>
    intro r h
    simp only [collectRecords, Option.bind_eq_bind, Option.bind_eq_some] at h
    obtain ⟨b, hb, r2, hr2, hcons⟩ := h
    have := ih r2 hr2
    simp only [Option.pure_def, Option.some_inj] at hcons
    subst hcons
    simp [this]

theorem collectRecords_mem {α β : Type} (f : α → Option β) :
    ∀ (l : List α) (r : List β), collectRecords f l = some r →
      ∀ b ∈ r, ∃ a ∈ l, f a = some b := by
  intro l
  induction l with
  | nil =>
    intro r h b hb
    simp [collectRecords] at h
    subst h
    simp at hb
  | cons a t ih =>
    intro r h b hb
    simp only [collectRecords, Option.bind_eq_bind, Option.bind_eq_some] at h
    obtain ⟨b0, hb0, r2, hr2, hcons⟩ := h
    simp only [Option.pure_def, Option.some_inj] at hcons
    subst hcons
    rcases List.mem_cons.mp hb with hb | hb
    · exact ⟨a, List.mem_cons_self a t, hb ▸ hb0⟩
    · obtain ⟨a2, ha2, hfa2⟩ := ih r2 hr2 b hb
      exact ⟨a2, List.mem_cons_of_mem a ha2, hfa2⟩

/-- C2: every successful run of `compute_correlations` emits exactly 40
records (4 outcomes x (5 same-week + 5 lag-1) metrics), and in every emitted
record `r_squared` is the square of `pearson_r` and `significant` holds
exactly when `pearson_p < 0.05`, strictly. -/
theorem compute_correlations_spec (lib : ScipyStats) (t : List CRow)
    (recs : List CorrRecord) (h : compute_correlations lib t = some recs) :
    recs.length = 40
    ∧ ∀ rec ∈ recs, rec.r_squared = rec.pearson_r ^ 2
        ∧ (rec.significant = true ↔ rec.pearson_p < 0.05) := by
  constructor
  · have hlen := collectRecords_length _ _ _ h
    rw [hlen]
    rfl
  · intro rec hrec
    obtain ⟨⟨o, m⟩, _, hmk⟩ := collectRecords_mem _ _ _ h rec hrec
    rw [mkCorrRecord] at hmk
    rcases hp : pearsonrQ lib (t.map m.col) (t.map o.col) with _ | rp
    · rw [hp] at hmk
      simp at hmk
    · rcases hs : spearmanrQ lib (t.map m.col) (t.map o.col) with _ | sp
      · rw [hp, hs] at hmk
        simp at hmk
      · rw [hp, hs] at hmk
        have hmk2 := Option.some_inj.mp hmk
        subst hmk2
        exact ⟨rfl, decide_eq_true_iff⟩

def qZeroStats : ScipyStats :=
  ⟨fun _ _ => 0, fun _ _ => 0, fun _ _ => 0, fun _ _ => 0⟩

def crowZero : CRow := ⟨0, 0, 0, 0, 0, 0, 0, 0, 0, 0, 0, 0, 0, 0⟩

def crowTable : List CRow := [crowZero, crowZero]

theorem compute_correlations_spec_witness :
    (compute_correlations qZeroStats crowTable).map List.length = some 40 := by
  obtain ⟨recs, hr⟩ := Option.ne_none_iff_exists'.mp
    (show compute_correlations qZeroStats crowTable ≠ none by decide)
  rw [hr]
  exact congrArg some ((compute_correlations_spec qZeroStats crowTable recs hr).1)

/-! ### MMWR week parsing: the calendar utility versus the pipeline's inline
parser (C7, C9; `utils/mmwr_calendar.py` lines 6-28 and `preprocess_data.py`
lines 63-79) -/

/-- Accumulator pass behind Python's `str.split()`: split on runs of
whitespace, discarding empty pieces. -/
def splitWsAux : List Char → List Char → List (List Char)
  | [], acc => if acc.isEmpty then [] else [acc.reverse]
  | c :: cs, acc =>
    if c.isWhitespace then
      if acc.isEmpty then splitWsAux cs []
      else acc.reverse :: splitWsAux cs []
    else splitWsAux cs (c :: acc)

/-- `s.split()` with no argument: whitespace-delimited tokens. -/
def pySplit (s : String) : List String :=
  (splitWsAux s.data []).map fun l => String.mk l

/-- Decimal value of a digit list. -/
def digitsToNat (l : List Char) : Nat :=
  l.foldl (fun acc c => 10 * acc + (c.toNat - 48)) 0

/-- Python's `int(str)` on a whitespace-free token: an optional single sign
followed by at least one decimal digit (the `_` digit separators Python also
tolerates never occur in the claims' inputs and are left out). -/
def pyIntList (l : List Char) : Option Int :=
  match l with
  | [] => none
  | c :: cs =>
    if c = '+' then
      if cs ≠ [] ∧ cs.all Char.isDigit then some (digitsToNat cs) else none
    else if c = '-' then
      if cs ≠ [] ∧ cs.all Char.isDigit then some (-(digitsToNat cs : Int)) else none
    else if (c :: cs).all Char.isDigit then some (digitsToNat (c :: cs)) else none

def pyInt (s : String) : Option Int := pyIntList s.data

/-- The `month_map` dictionary shared verbatim by both parsers; `none` is the
`KeyError` of a failed lookup. -/
def month_map (s : String) : Option Nat :=
  match s with
  | "January" => some 1
  | "February" => some 2
  | "March" => some 3
  | "April" => some 4
  | "May" => some 5
  | "June" => some 6
  | "July" => some 7
  | "August" => some 8
  | "September" => some 9
  | "October" => some 10
  | "November" => some 11
  | "December" => some 12
  | _ => none

/-- `s.rstrip(',')`: drop every trailing comma. -/
def rstripComma (s : String) : String :=
  String.mk ((s.data.reverse.dropWhile fun c => c = ',').reverse)

/-- `parse_mmwr_week(mmwr_string)` (`utils/mmwr_calendar.py`): splits on
whitespace, converts tokens 0 and 2 to integers, looks token 4 up in the
month table, strips trailing commas from token 5, and builds
`datetime(int(token 6), month, int(token 5))`; any failure raises. -/
def parse_mmwr_week (s : String) : Option (Int × Int × Date) := do
  let parts := pySplit s
  let p0 ← parts.get? 0
  let year ← pyInt p0
  let p2 ← parts.get? 2
  let week ← pyInt p2
  let p4 ← parts.get? 4
  let p5 ← parts.get? 5
  let p6 ← parts.get? 6
  let yearEnd ← pyInt p6
  let m ← month_map p4
  let day ← pyInt (rstripComma p5)
  let endDate ← mkDatetime yearEnd m day
  pure (year, week, endDate)

/-- The pipeline's inline `parse_week_string(s)` (`preprocess_data.py` lines
63-79): identical token handling except that token 0 is never read; a raised
error is caught and `(None, None)` returned, modelled `none`. -/
def parse_week_string (s : String) : Option (Int × Date) := do
  let parts := pySplit s
  let p2 ← parts.get? 2
  let week_num ← pyInt p2
  let p4 ← parts.get? 4
  let m ← month_map p4
  let p5 ← parts.get? 5
  let day ← pyInt (rstripComma p5)
  let p6 ← parts.get? 6
  let year ← pyInt p6
  let endDate ← mkDatetime year m day
  pure (week_num, endDate)

/-- C7 counterexample: on a week string whose leading year token is not
numeric, the pipeline's inline parser succeeds while the calendar utility
fails, so the two parsers do not honor identical semantics. -/
theorem week_parsers_not_equivalent :
    parse_week_string "X Week 02 ending January 13, 2018"
        = some (2, ⟨2018, 1, 13⟩)
    ∧ parse_mmwr_week "X Week 02 ending January 13, 2018" = none := by
  constructor
  · rfl
  · rfl

/-- C7 amended: wherever the calendar utility's parser succeeds, the
pipeline's inline parser succeeds with the same week number and end date (the
converse fails: the pipeline parser never inspects the leading year token). -/
theorem parse_week_string_refines_parse_mmwr_week (s : String) (y w : Int)
    (d : Date) (h : parse_mmwr_week s = some (y, w, d)) :
    parse_week_string s = some (w, d) := by
  simp only [parse_mmwr_week, List.get?_eq_getElem?, Option.bind_eq_bind,
    Option.bind_eq_some, Option.pure_def, Option.some_inj, Prod.mk.injEq] at h
  obtain ⟨p0, hp0, y0, hy0, p2, hp2, w2, hw2, p4, hp4, p5, hp5, p6, hp6,
    y6, hy6, m, hm, dd, hdd, dt, hdt, rfl, rfl, rfl⟩ := h
  simp [parse_week_string, hp2, hw2, hp4, hm, hp5, hdd, hp6, hy6, hdt]

/-- A decimal numeral: at least one digit, nothing else. -/
def isNumeral (s : String) : Bool := !s.data.isEmpty && s.data.all Char.isDigit

/-- The integer a decimal numeral denotes. -/
def intOfNumeral (s : String) : Int := (digitsToNat s.data : Int)

theorem pyInt_of_isNumeral (s : String) (h : isNumeral s = true) :
    pyInt s = some (intOfNumeral s) := by
  rw [pyInt, intOfNumeral]
  rcases hd : s.data with _ | ⟨c, cs⟩
  · rw [isNumeral, hd] at h
    simp at h
  · rw [isNumeral, hd] at h
    have hall : (c :: cs).all Char.isDigit = true := by
      simp only [Bool.and_eq_true] at h
      exact h.2
    have hcdig : c.isDigit = true := by
      simp only [List.all_cons, Bool.and_eq_true] at hall
      exact hall.1
    have hplus : ¬ c = '+' := fun he => by
      rw [he] at hcdig
      exact absurd hcdig (by decide)
    have hminus : ¬ c = '-' := fun he => by
      rw [he] at hcdig
      exact absurd hcdig (by decide)
    simp only [pyIntList, if_neg hplus, if_neg hminus, if_pos hall]

/-- C9 counterexample: a week string whose tokens 0, 2, 5 (comma-stripped)
and 6 are decimal numerals and whose token 4 is a month name, yet
`parse_mmwr_week` fails, because day 99 does not form a valid date - so
numeral/month-name shape alone does not guarantee success as the claim
states. -/
theorem parse_mmwr_week_needs_valid_date :
    pySplit "2018 Week 01 ending January 99, 2018"
        = ["2018", "Week", "01", "ending", "January", "99,", "2018"]
    ∧ isNumeral "2018" = true
    ∧ isNumeral "01" = true
    ∧ month_map "January" = some 1
    ∧ isNumeral (rstripComma "99,") = true
    ∧ parse_mmwr_week "2018 Week 01 ending January 99, 2018" = none := by
  exact ⟨rfl, rfl, rfl, rfl, rfl, rfl⟩

/-- C9 amended: `parse_mmwr_week` never inspects tokens 1 and 3 and never
cross-checks the leading year against the end date's year: whenever tokens
0, 2, 5 (after stripping trailing commas) and 6 of the whitespace-split input
are decimal numerals, token 4 is a month name, and the (token 6, month,
token 5) triple forms a valid calendar date, it succeeds and returns
(integer of token 0, integer of token 2, that date). -/
theorem parse_mmwr_week_field_blind (s : String) (t0 t2 t4 t5 t6 : String)
    (m : Nat) (d : Date)
    (h0 : (pySplit s).get? 0 = some t0) (hn0 : isNumeral t0 = true)
    (h2 : (pySplit s).get? 2 = some t2) (hn2 : isNumeral t2 = true)
    (h4 : (pySplit s).get? 4 = some t4) (hm : month_map t4 = some m)
    (h5 : (pySplit s).get? 5 = some t5)
    (hn5 : isNumeral (rstripComma t5) = true)
    (h6 : (pySplit s).get? 6 = some t6) (hn6 : isNumeral t6 = true)
    (hd : mkDatetime (intOfNumeral t6) m (intOfNumeral (rstripComma t5))
        = some d) :
    parse_mmwr_week s = some (intOfNumeral t0, intOfNumeral t2, d) := by
  simp only [List.get?_eq_getElem?] at h0 h2 h4 h5 h6
  simp [parse_mmwr_week, h0, h2, h4, h5, h6, hm, hd,
    pyInt_of_isNumeral t0 hn0, pyInt_of_isNumeral t2 hn2,
    pyInt_of_isNumeral (rstripComma t5) hn5, pyInt_of_isNumeral t6 hn6]

/-- C9 witness: tokens 1 and 3 are arbitrary words, the leading year 2018
disagrees with the end date's year 2019, and the end date (2019-01-06, a
Sunday) is not a Saturday; the parse still succeeds. -/
theorem parse_mmwr_week_field_blind_witness :
    parse_mmwr_week "2018 Foo 01 bar January 06, 2019"
        = some (2018, 1, ⟨2019, 1, 6⟩) := by
  have h := parse_mmwr_week_field_blind "2018 Foo 01 bar January 06, 2019"
    "2018" "01" "January" "06," "2019" 1 ⟨2019, 1, 6⟩
    rfl rfl rfl rfl rfl rfl rfl rfl rfl rfl rfl
  rw [h]
  decide

theorem parse_week_string_refines_parse_mmwr_week_witness :
    parse_week_string "2018 Week 01 ending January 06, 2018"
        = some (1, ⟨2018, 1, 6⟩) :=
  parse_week_string_refines_parse_mmwr_week
    "2018 Week 01 ending January 06, 2018" 2018 1 ⟨2018, 1, 6⟩ rfl

/-! ### Data loader versus statistics component: `compute_correlation`
(C3, C10; `utils/data_loader.py` lines 30-35 and `components/statistics.py`
lines 6-24) -/

/-- The real-valued outputs of the external statistics library, abstract. -/
structure RealScipy where
  pearson_r : List ℚ → List ℚ → ℝ
  pearson_p : List ℚ → List ℚ → ℝ
  spearman_r : List ℚ → List ℚ → ℝ
  spearman_p : List ℚ → List ℚ → ℝ

/-- `scipy.stats.pearsonr` on real outputs: raises (modelled `none`) unless
the inputs have equal length and at least two observations. -/
def pearsonrR (lib : RealScipy) (x y : List ℚ) : Option (ℝ × ℝ) :=
  if x.length = y.length ∧ 2 ≤ x.length then
    some (lib.pearson_r x y, lib.pearson_p x y)
  else none

/-- `scipy.stats.spearmanr` under the same input checks. -/
def spearmanrR (lib : RealScipy) (x y : List ℚ) : Option (ℝ × ℝ) :=
  if x.length = y.length ∧ 2 ≤ x.length then
    some (lib.spearman_r x y, lib.spearman_p x y)
  else none

/-- The dictionary returned by the data loader's `compute_correlation`. -/
structure LoaderCorr where
  r : ℝ
  p : ℝ
  r_squared : ℝ

/-- The data loader's `compute_correlation(df, x_col, y_col)`
(`utils/data_loader.py`): drops the missing values of each of the two columns
independently (`df[x_col].dropna()`, `df[y_col].dropna()`) and hands the two
possibly misaligned sequences to the Pearson routine. The frame is modelled
by its two referenced columns, row-aligned. -/
def dataLoader_compute_correlation (lib : RealScipy)
    (df : List (Option ℚ × Option ℚ)) : Option LoaderCorr := do
  let rp ← pearsonrR lib (df.filterMap Prod.fst) (df.filterMap Prod.snd)
  pure ⟨rp.1, rp.2, rp.1 ^ 2⟩

/-- The dictionary returned by the statistics component's
`compute_correlation`. -/
structure StatsCorr where
  pearson_r : ℝ
  pearson_p : ℝ
  pearson_r_squared : ℝ
  spearman_r : ℝ
  spearman_p : ℝ
  n : ℕ

/-- `df[[x_col, y_col]].dropna()`: keep the rows where both entries are
present. -/
def dropnaRows (df : List (Option ℚ × Option ℚ)) : List (ℚ × ℚ) :=
  df.filterMap fun rc =>
    match rc with
    | (some a, some b) => some (a, b)
    | _ => none

/-- The statistics component's `compute_correlation(df, x_col, y_col)`
(`components/statistics.py`): row-wise missing-value removal, then Pearson
and Spearman on the aligned columns. -/
def statistics_compute_correlation (lib : RealScipy)
    (df : List (Option ℚ × Option ℚ)) : Option StatsCorr := do
  let valid := dropnaRows df
  let rp ← pearsonrR lib (valid.map Prod.fst) (valid.map Prod.snd)
  let sp ← spearmanrR lib (valid.map Prod.fst) (valid.map Prod.snd)
  pure ⟨rp.1, rp.2, rp.1 ^ 2, sp.1, sp.2, valid.length⟩

/-- The Pearson figures the loader returns. -/
def loaderFigures (o : Option LoaderCorr) : Option (ℝ × ℝ × ℝ) :=
  o.map fun res => (res.r, res.p, res.r_squared)

/-- The Pearson figures the statistics component returns. -/
def statsFigures (o : Option StatsCorr) : Option (ℝ × ℝ × ℝ) :=
  o.map fun res => (res.pearson_r, res.pearson_p, res.pearson_r_squared)

/-- The exact square of the Pearson correlation coefficient of two samples,
a rational number. -/
def pearsonR2 (x y : List ℚ) : ℚ :=
  let mx := qmean x
  let my := qmean y
  let sxy := ((x.zip y).map fun pr => (pr.1 - mx) * (pr.2 - my)).sum
  let sxx := (x.map fun a => (a - mx) ^ 2).sum
  let syy := (y.map fun b => (b - my) ^ 2).sum
  sxy ^ 2 / (sxx * syy)

theorem pearsonR2_nonneg (x y : List ℚ) : 0 ≤ pearsonR2 x y := by
  refine div_nonneg (sq_nonneg _) (mul_nonneg ?_ ?_)
  · refine List.sum_nonneg ?_
    intro z hz
    obtain ⟨a, -, rfl⟩ := List.mem_map.mp hz
    exact sq_nonneg _
  · refine List.sum_nonneg ?_
    intro z hz
    obtain ⟨b, -, rfl⟩ := List.mem_map.mp hz
    exact sq_nonneg _

/-- An abstract library decides the Pearson computation soundly when, on
equal-length nondegenerate inputs of at least two observations, the square of
its correlation coefficient is the exact Pearson r squared. -/
def SoundPearson (lib : RealScipy) : Prop :=
  ∀ x y : List ℚ, x.length = y.length → 2 ≤ x.length →
    (x.map fun a => (a - qmean x) ^ 2).sum ≠ 0 →
    (y.map fun b => (b - qmean y) ^ 2).sum ≠ 0 →
    lib.pearson_r x y ^ 2 = (pearsonR2 x y : ℝ)

/-- C3 as the specification states it: for every sound library and every
frame, the data loader's `compute_correlation` returns the same Pearson
figures as the statistics component's. -/
def loader_matches_statistics : Prop :=
  ∀ lib : RealScipy, SoundPearson lib →
    ∀ df : List (Option ℚ × Option ℚ),
      loaderFigures (dataLoader_compute_correlation lib df)
        = statsFigures (statistics_compute_correlation lib df)

noncomputable def sqrtPearsonStats : RealScipy :=
  { pearson_r := fun x y => Real.sqrt (pearsonR2 x y)
    pearson_p := fun _ _ => 0
    spearman_r := fun _ _ => 0
    spearman_p := fun _ _ => 0 }

theorem sqrtPearsonStats_sound : SoundPearson sqrtPearsonStats := by
  intro x y h1 h2 h3 h4
  show Real.sqrt (pearsonR2 x y) ^ 2 = _
  rw [Real.sq_sqrt]
  exact_mod_cast pearsonR2_nonneg x y

/-- A frame on which the two implementations feed different sequences to the
Pearson routine: the loader drops the missing values per column, the
statistics component drops whole rows. -/
def dfC3 : List (Option ℚ × Option ℚ) :=
  [(some 1, none), (some 2, some 1), (some 3, some 2), (none, some 10)]

/-- C3 counterexample: the two implementations are not functionally
equivalent. On `dfC3` the loader computes Pearson over the misaligned
sequences [1,2,3] and [1,2,10] (r squared 243/292) while the statistics
component computes it over the two complete rows (r squared 1), so any sound
library makes them return different r squared figures. -/
theorem loader_not_equivalent_to_statistics : ¬ loader_matches_statistics := by
  intro h
  have heq := h sqrtPearsonStats sqrtPearsonStats_sound dfC3
  have hx : dfC3.filterMap Prod.fst = [1, 2, 3] := by decide
  have hy : dfC3.filterMap Prod.snd = [1, 2, 10] := by decide
  have hv : dropnaRows dfC3 = [(2, 1), (3, 2)] := by decide
  have hL : dataLoader_compute_correlation sqrtPearsonStats dfC3
      = some ⟨Real.sqrt (pearsonR2 [1, 2, 3] [1, 2, 10]), 0,
          Real.sqrt (pearsonR2 [1, 2, 3] [1, 2, 10]) ^ 2⟩ := by
    rw [dataLoader_compute_correlation, hx, hy, pearsonrR,
      if_pos (by decide : ([1, 2, 3] : List ℚ).length
          = ([1, 2, 10] : List ℚ).length ∧ 2 ≤ ([1, 2, 3] : List ℚ).length)]
    rfl
  have hS : statistics_compute_correlation sqrtPearsonStats dfC3
      = some ⟨Real.sqrt (pearsonR2 [2, 3] [1, 2]), 0,
          Real.sqrt (pearsonR2 [2, 3] [1, 2]) ^ 2, 0, 0, 2⟩ := by
    simp only [statistics_compute_correlation, hv, List.map_cons, List.map_nil,
      pearsonrR, spearmanrR,
      if_pos (by decide : ([2, 3] : List ℚ).length
          = ([1, 2] : List ℚ).length ∧ 2 ≤ ([2, 3] : List ℚ).length)]
    rfl
  rw [hL, hS] at heq
  have h3 : Real.sqrt (pearsonR2 [1, 2, 3] [1, 2, 10]) ^ 2
      = Real.sqrt (pearsonR2 [2, 3] [1, 2]) ^ 2 :=
    congrArg (fun o => (o.getD (0, 0, 0)).2.2) heq
  rw [Real.sq_sqrt (by exact_mod_cast pearsonR2_nonneg [1, 2, 3] [1, 2, 10]),
    Real.sq_sqrt (by exact_mod_cast pearsonR2_nonneg [2, 3] [1, 2])] at h3
  have hq : pearsonR2 [1, 2, 3] [1, 2, 10] = pearsonR2 [2, 3] [1, 2] := by
    exact_mod_cast h3
  have ha : pearsonR2 [(1 : ℚ), 2, 3] [1, 2, 10] = 243 / 292 := by
    norm_num [pearsonR2, qmean]
  have hb : pearsonR2 [(2 : ℚ), 3] [1, 2] = 1 := by
    norm_num [pearsonR2, qmean]
  rw [ha, hb] at hq
  norm_num at hq

theorem filterMap_fst_of_aligned :
    ∀ (df : List (Option ℚ × Option ℚ)),
      (∀ rc ∈ df, rc.1.isSome = rc.2.isSome) →
      df.filterMap Prod.fst = (dropnaRows df).map Prod.fst := by
  intro df
  induction df with
  | nil =>
    intro _
    rfl
  | cons rc t ih =>
    intro h
    have hrc := h rc (List.mem_cons_self rc t)
    have ht : ∀ x ∈ t, x.1.isSome = x.2.isSome :=
      fun x hx => h x (List.mem_cons_of_mem rc hx)
    rcases rc with ⟨x, y⟩
    rcases x with _ | a <;> rcases y with _ | b
    · simp [dropnaRows, List.filterMap_cons, ih ht]
    · simp at hrc
    · simp at hrc
    · simp [dropnaRows, List.filterMap_cons, ih ht]

theorem filterMap_snd_of_aligned :
    ∀ (df : List (Option ℚ × Option ℚ)),
      (∀ rc ∈ df, rc.1.isSome = rc.2.isSome) →
      df.filterMap Prod.snd = (dropnaRows df).map Prod.snd := by
  intro df
  induction df with
  | nil =>
    intro _
    rfl
  | cons rc t ih =>
    intro h
    have hrc := h rc (List.mem_cons_self rc t)
    have ht : ∀ x ∈ t, x.1.isSome = x.2.isSome :=
      fun x hx => h x (List.mem_cons_of_mem rc hx)
    rcases rc with ⟨x, y⟩
    rcases x with _ | a <;> rcases y with _ | b
    · simp [dropnaRows, List.filterMap_cons, ih ht]
    · simp at hrc
    · simp at hrc
    · simp [dropnaRows, List.filterMap_cons, ih ht]

/-- C3 amended: the two `compute_correlation` implementations return the same
Pearson figures exactly on frames whose two columns have their missing
entries in the same rows (in particular on frames with no missing entries);
on frames where the missing entries differ row-wise they feed different
sequences to the Pearson routine and diverge. -/
theorem loader_matches_statistics_on_aligned_frames (lib : RealScipy)
    (df : List (Option ℚ × Option ℚ))
    (h : ∀ rc ∈ df, rc.1.isSome = rc.2.isSome) :
    loaderFigures (dataLoader_compute_correlation lib df)
      = statsFigures (statistics_compute_correlation lib df) := by
  simp only [dataLoader_compute_correlation, statistics_compute_correlation]
  rw [filterMap_fst_of_aligned df h, filterMap_snd_of_aligned df h]
  rcases hp : pearsonrR lib ((dropnaRows df).map Prod.fst)
      ((dropnaRows df).map Prod.snd) with _ | rp
  · simp [hp, loaderFigures, statsFigures]
  · have hcond : ((dropnaRows df).map Prod.fst).length
        = ((dropnaRows df).map Prod.snd).length
        ∧ 2 ≤ ((dropnaRows df).map Prod.fst).length := by
      by_contra hc
      rw [pearsonrR, if_neg hc] at hp
      exact Option.noConfusion hp
    have hs : spearmanrR lib ((dropnaRows df).map Prod.fst)
        ((dropnaRows df).map Prod.snd)
        = some (lib.spearman_r ((dropnaRows df).map Prod.fst)
              ((dropnaRows df).map Prod.snd),
            lib.spearman_p ((dropnaRows df).map Prod.fst)
              ((dropnaRows df).map Prod.snd)) := by
      rw [spearmanrR, if_pos hcond]
    simp [hp, hs, loaderFigures, statsFigures]

def zeroRealStats : RealScipy :=
  ⟨fun _ _ => 0, fun _ _ => 0, fun _ _ => 0, fun _ _ => 0⟩

def alignedDf : List (Option ℚ × Option ℚ) :=
  [(some 1, some 2), (none, none), (some 3, some 4)]

theorem loader_matches_statistics_on_aligned_frames_witness :
    loaderFigures (dataLoader_compute_correlation zeroRealStats alignedDf)
      = statsFigures (statistics_compute_correlation zeroRealStats alignedDf) :=
  loader_matches_statistics_on_aligned_frames zeroRealStats alignedDf (by decide)

theorem filterMap_length_add_isNone {α β : Type} (f : α → Option β)
    (l : List α) :
    (l.filterMap f).length + (l.filter fun a => (f a).isNone).length
      = l.length := by
  induction l with
  | nil => rfl
  | cons a t ih =>
    rcases hf : f a with _ | b
    · simp only [List.filterMap_cons, List.filter_cons, hf]
      simp only [Option.isNone_none, if_pos, List.length_cons]
      omega
    · simp only [List.filterMap_cons, List.filter_cons, hf]
      simp only [Option.isNone_some, List.length_cons]
      simp
      omega

/-- A frame whose columns hold different numbers of missing entries. -/
def loaderCexDf : List (Option ℚ × Option ℚ) :=
  [(some 1, none), (some 2, some 3), (some 4, some 5)]

/-- C10: the data loader's `compute_correlation` is partial. On a frame whose
two columns have different numbers of missing entries the per-column dropped
sequences have unequal lengths and the Pearson routine raises instead of
returning, and every successful call implies the two columns had equally many
missing entries. -/
theorem loader_correlation_partiality :
    dataLoader_compute_correlation zeroRealStats loaderCexDf = none
    ∧ ∀ (lib : RealScipy) (df : List (Option ℚ × Option ℚ)) (res : LoaderCorr),
        dataLoader_compute_correlation lib df = some res →
          (df.filter fun rc => rc.1.isNone).length
            = (df.filter fun rc => rc.2.isNone).length := by
  constructor
  · rfl
  · intro lib df res hres
    have hcond : (df.filterMap Prod.fst).length = (df.filterMap Prod.snd).length
        ∧ 2 ≤ (df.filterMap Prod.fst).length := by
      by_contra hc
      rw [dataLoader_compute_correlation, pearsonrR, if_neg hc] at hres
      exact Option.noConfusion hres
    have h1 := filterMap_length_add_isNone Prod.fst df
    have h2 := filterMap_length_add_isNone Prod.snd df
    omega

/-! ### Frame effects of the statistics component (C8) -/

/-- A dataframe object as the seasonal-adjustment routine sees it: the
original columns, plus the `month` and `adjusted` columns once assigned
(absent on every caller-held frame). -/
structure SAFrame where
  rows : List SARow
  month : Option (List Nat)
  adjusted : Option (List ℚ)
deriving DecidableEq, Repr

/-- `compute_seasonal_adjustment` over an explicit store of frame objects
(references are indices): `df = df.copy()` allocates a fresh object, the two
column assignments then mutate that fresh object in place, and its reference
is returned; `none` models a lookup of a dangling reference. -/
def compute_seasonal_adjustment_heap (h : List SAFrame) (r : Nat) :
    Option (List SAFrame × Nat) :=
  match h.get? r with
  | none => none
  | some f =>
    let r1 := h.length
    let h1 := h ++ [f]
    let h2 := h1.set r1
      { f with month := some (f.rows.map fun row => row.date.month) }
    let h3 := h2.set r1
      { f with
        month := some (f.rows.map fun row => row.date.month)
        adjusted := some ((compute_seasonal_adjustment f.rows).map SAOut.adjusted) }
    some (h3, r1)

/-- The statistics component's `compute_correlation` over the store: it only
reads the frame (its `valid_data` intermediate is a fresh object never stored
back), so the store it returns is the store it was given. -/
def statistics_compute_correlation_heap (lib : RealScipy)
    (h : List (List (Option ℚ × Option ℚ))) (r : Nat) :
    Option (List (List (Option ℚ × Option ℚ)) × Option StatsCorr) :=
  match h.get? r with
  | none => none
  | some df => some (h, statistics_compute_correlation lib df)

/-- `compare_groups` over the store: it only reads the frame (its two group
selections are fresh objects), so the store is returned unchanged. -/
def compare_groups_heap (sqrtQ : ℚ → ℚ) (ttest_ind : List ℚ → List ℚ → ℚ × ℚ)
    (h : List (List CGRow)) (r : Nat) (threshold : ℚ) :
    Option (List (List CGRow) × Option CompareGroupsResult) :=
  match h.get? r with
  | none => none
  | some df => some (h, compare_groups sqrtQ ttest_ind df threshold)

/-- C8: the three routines leave every caller-held frame unchanged. The
seasonal adjustment writes its `month` and `adjusted` columns only into the
freshly allocated copy (a new reference), so the caller's frame, and in fact
every pre-existing frame, still holds exactly its original rows and columns;
the correlation and group-comparison routines return the store as given. -/
theorem statistics_routines_preserve_caller_frame :
    (∀ (h : List SAFrame) (r : Nat) (hout : List SAFrame) (rout : Nat),
        r < h.length →
        compute_seasonal_adjustment_heap h r = some (hout, rout) →
        hout.get? r = h.get? r ∧ rout ≠ r ∧ hout.take h.length = h)
    ∧ (∀ (lib : RealScipy) (h : List (List (Option ℚ × Option ℚ))) (r : Nat)
          (hout : List (List (Option ℚ × Option ℚ))) (res : Option StatsCorr),
        statistics_compute_correlation_heap lib h r = some (hout, res) →
        hout = h)
    ∧ (∀ (sqrtQ : ℚ → ℚ) (ttest_ind : List ℚ → List ℚ → ℚ × ℚ)
          (h : List (List CGRow)) (r : Nat) (threshold : ℚ)
          (hout : List (List CGRow)) (res : Option CompareGroupsResult),
        compare_groups_heap sqrtQ ttest_ind h r threshold = some (hout, res) →
        hout = h) := by
  refine ⟨?_, ?_, ?_⟩
  · intro h r hout rout hr hop
    rcases hf : h.get? r with _ | f
    · simp only [compute_seasonal_adjustment_heap, hf] at hop
      exact Option.noConfusion hop
    · simp only [compute_seasonal_adjustment_heap, hf, Option.some_inj,
        Prod.mk.injEq] at hop
      obtain ⟨hhout, hrout⟩ := hop
      have hset : ∀ (v v0 : SAFrame),
          ((h ++ [v0]).set h.length v) = h ++ [v] := by
        intro v v0
        rw [List.set_append_right _ _ (le_refl _)]
        simp
      rw [hset, hset] at hhout
      subst hhout
      subst hrout
      refine ⟨?_, by omega, List.take_left h _⟩
      simp only [List.get?_eq_getElem?, List.getElem?_eq_getElem hr] at hf
      simp [List.get?_eq_getElem?, List.getElem?_append, hr, hf]
  · intro lib h r hout res hop
    rcases hf : h.get? r with _ | df
    · simp only [statistics_compute_correlation_heap, hf] at hop
      exact Option.noConfusion hop
    · simp only [statistics_compute_correlation_heap, hf, Option.some_inj,
        Prod.mk.injEq] at hop
      exact hop.1.symm
  · intro sqrtQ ttest_ind h r threshold hout res hop
    rcases hf : h.get? r with _ | df
    · simp only [compare_groups_heap, hf] at hop
      exact Option.noConfusion hop
    · simp only [compare_groups_heap, hf, Option.some_inj,
        Prod.mk.injEq] at hop
      exact hop.1.symm
